import Mathlib

/-!
# Shallow embedding of `src/cpp/qsbr/qsbr.h`

`darr::SingleWriterQuiescentStateReclamation` is a single-writer,
multi-reader quiescent-state based reclamation engine.  Its state is an
epoch counter (`global_epoch_`, a `uint64_t` starting at 0), a list of
registered readers (`readers_`, a `std::list` into which `create_reader`
inserts at the front), and a garbage queue (`garbage_`, a `std::deque`
whose front is the oldest entry).

Epochs are modelled as `Nat`.  The C++ `uint64_t` counter is bumped once
per `garbage_collect` call, so it cannot wrap within any feasible
execution; wraparound is therefore not modelled, and where a comparison
against the `std::numeric_limits<uint64_t>::max()` sentinel depends on
the counter fitting in 64 bits, that bound appears as an explicit
hypothesis.  The type-erased payload (`std::variant` of owned pointers)
is modelled by a `Nat` identifier standing for the owned object.

All operations are executed by the single writer thread or by a reader
on its own handle; the registry lock makes them mutually exclusive, so
an execution is a sequence of atomic operations on one state.
-/

namespace darr

/-- `using Epoch = uint64_t;` (modelled as `Nat`, see header comment). -/
abbrev Epoch := Nat

/-- `std::numeric_limits<Epoch>::max()` for `Epoch = uint64_t`. -/
def epochMax : Epoch := 2 ^ 64 - 1

/-- One registered reader (`class Reader`): its thread-local
`local_` epoch, set from the shared counter by `on_quiesce()`.
The reference to the shared counter and the cache-line padding carry no
state of their own and are not modelled. -/
structure Reader where
  local_ : Epoch
  deriving DecidableEq, Repr

/-- `Reader::current_epoch()` returns the locally stored epoch. -/
def Reader.current_epoch (r : Reader) : Epoch := r.local_

/-- `struct Trash`: the retirement epoch tag and the owned object
(modelled by an identifier). -/
structure Trash where
  epoch : Epoch
  item : Nat
  deriving DecidableEq, Repr

/-- The state of a `SingleWriterQuiescentStateReclamation` instance:
`global_epoch_` (atomic counter), `readers_` (front = most recently
registered, per `emplace_front`), `garbage_` (front = oldest entry). -/
structure SWQSR where
  global_epoch_ : Epoch
  readers_ : List Reader
  garbage_ : List Trash
  deriving DecidableEq, Repr

/-- The default-constructed instance: `global_epoch_{0}`, empty
registry, empty garbage queue. -/
def initState : SWQSR := { global_epoch_ := 0, readers_ := [], garbage_ := [] }

/-- `pending_garbage()` returns `garbage_.size()`. -/
def pending_garbage (s : SWQSR) : Nat := s.garbage_.length

/-- `destroy_later(g)`: appends `Trash{global_epoch_.load(), move(g)}`
at the back of the garbage queue. -/
def destroy_later (g : Nat) (s : SWQSR) : SWQSR :=
  { s with garbage_ := s.garbage_ ++ [{ epoch := s.global_epoch_, item := g }] }

/-- `create_reader()`: `readers_.emplace_front(global_epoch_)`; the
`Reader` constructor immediately runs `on_quiesce()`, so the new
front-of-registry reader starts with `local_ = global_epoch_`. -/
def create_reader (s : SWQSR) : SWQSR :=
  { s with readers_ := { local_ := s.global_epoch_ } :: s.readers_ }

/-- The `ReaderHandle` deleter: `readers_.remove_if` on the handle's
address, modelled as erasing the reader at a given registry position. -/
def remove_reader (i : Nat) (s : SWQSR) : SWQSR :=
  { s with readers_ := s.readers_.eraseIdx i }

/-- `Reader::on_quiesce()` on the reader at registry position `i`:
`local_ = global_.load()`. -/
def on_quiesce (i : Nat) (s : SWQSR) : SWQSR :=
  { s with readers_ := s.readers_.set i { local_ := s.global_epoch_ } }

/-- `min_quiesced_epoch()`: starts from the
`std::numeric_limits<Epoch>::max()` sentinel and folds `std::min` over
the registry, but the loop header `for (++iter; iter != end; ++iter)`
advances past `begin()` before the first test, so the first registry
element is skipped (`List.drop 1`).  On an empty registry the loop body
never runs and the sentinel is returned. -/
def min_quiesced_epoch (s : SWQSR) : Epoch :=
  (s.readers_.drop 1).foldl (fun m r => min m r.current_epoch) epochMax

/-- The trim loop of `garbage_collect`:
`while (!garbage_.empty() && garbage_.front().epoch < gc_epoch) pop_front();` -/
def popWhileLt (gc_epoch : Epoch) : List Trash → List Trash
  | [] => []
  | t :: rest => if t.epoch < gc_epoch then popWhileLt gc_epoch rest else t :: rest

/-- `garbage_collect()`: captures the pre-advance counter
(`fetch_add(1)` returns the old value), computes `min_quiesced_epoch()`,
and if `gc_epoch > 0 && gc_epoch < global_epoch` lowers `gc_epoch` by one
and pops eligible entries from the front; returns
`(global_epoch > gc_epoch) ? global_epoch - gc_epoch : 0` for the final
value of `gc_epoch`. -/
def garbage_collect (s : SWQSR) : SWQSR × Nat :=
  let global_epoch := s.global_epoch_
  let s1 : SWQSR := { s with global_epoch_ := s.global_epoch_ + 1 }
  let gc_epoch := min_quiesced_epoch s1
  if 0 < gc_epoch ∧ gc_epoch < global_epoch then
    let gc_epoch2 := gc_epoch - 1
    ({ s1 with garbage_ := popWhileLt gc_epoch2 s1.garbage_ },
     if gc_epoch2 < global_epoch then global_epoch - gc_epoch2 else 0)
  else
    (s1, if gc_epoch < global_epoch then global_epoch - gc_epoch else 0)

/-- One operation of the API surface, as invoked by the writer thread or
by a reader on its own handle. -/
inductive Op where
  | createReader : Op
  | removeReader (i : Nat) : Op
  | quiesce (i : Nat) : Op
  | destroyLater (g : Nat) : Op
  | collect : Op
  deriving DecidableEq, Repr

/-- Apply one operation to the state (the return values of
`create_reader` and `garbage_collect` are dropped here). -/
def applyOp (s : SWQSR) : Op → SWQSR
  | Op.createReader => create_reader s
  | Op.removeReader i => remove_reader i s
  | Op.quiesce i => on_quiesce i s
  | Op.destroyLater g => destroy_later g s
  | Op.collect => (garbage_collect s).1

/-- Run a sequence of operations from a given state, first element
first. -/
def runFrom (s : SWQSR) : List Op → SWQSR
  | [] => s
  | op :: ops => runFrom (applyOp s op) ops

/-- Run a sequence of operations from the default-constructed state. -/
def run (ops : List Op) : SWQSR := runFrom initState ops

/-- A state is reachable when some operation sequence produces it from
the default-constructed state. -/
def Reachable (s : SWQSR) : Prop := ∃ ops : List Op, run ops = s

/-- The specification's `min_reader_epoch`: the minimum of
`observed_epoch()` over all currently registered readers (the sentinel
when none are registered).  Stated from the spec's words for comparison
with the code's `min_quiesced_epoch`, which skips the first registry
element. -/
def minReaderEpoch (s : SWQSR) : Epoch :=
  s.readers_.foldl (fun m r => min m r.current_epoch) epochMax

/-- The effective gc epoch of one `garbage_collect` call: the value of
the local `gc_epoch` after the conditional decrement, i.e.
`min_quiesced_epoch() - 1` exactly when the trim branch runs. -/
def effective_gc_epoch (s : SWQSR) : Epoch :=
  if 0 < min_quiesced_epoch s ∧ min_quiesced_epoch s < s.global_epoch_ then
    min_quiesced_epoch s - 1
  else
    min_quiesced_epoch s

/-! ## Helper lemmas -/

theorem min_quiesced_epoch_global (s : SWQSR) (g : Epoch) :
    min_quiesced_epoch { s with global_epoch_ := g } = min_quiesced_epoch s := rfl

/-- The state component of `garbage_collect`, in branch form. -/
theorem garbage_collect_fst (s : SWQSR) :
    (garbage_collect s).1 =
      if 0 < min_quiesced_epoch s ∧ min_quiesced_epoch s < s.global_epoch_ then
        { s with global_epoch_ := s.global_epoch_ + 1,
                 garbage_ := popWhileLt (min_quiesced_epoch s - 1) s.garbage_ }
      else { s with global_epoch_ := s.global_epoch_ + 1 } := by
  unfold garbage_collect
  by_cases h : 0 < min_quiesced_epoch s ∧ min_quiesced_epoch s < s.global_epoch_ <;>
    simp [min_quiesced_epoch_global, h]

/-- The returned generation count of `garbage_collect`, in branch form. -/
theorem garbage_collect_snd (s : SWQSR) :
    (garbage_collect s).2 =
      if 0 < min_quiesced_epoch s ∧ min_quiesced_epoch s < s.global_epoch_ then
        (if min_quiesced_epoch s - 1 < s.global_epoch_ then
          s.global_epoch_ - (min_quiesced_epoch s - 1) else 0)
      else
        (if min_quiesced_epoch s < s.global_epoch_ then
          s.global_epoch_ - min_quiesced_epoch s else 0) := by
  unfold garbage_collect
  by_cases h : 0 < min_quiesced_epoch s ∧ min_quiesced_epoch s < s.global_epoch_ <;>
    simp [min_quiesced_epoch_global, h]

theorem foldl_min_le_init (l : List Reader) (a : Epoch) :
    l.foldl (fun m r => min m r.current_epoch) a ≤ a := by
  induction l generalizing a with
  | nil => simp
  | cons r t ih =>
    calc t.foldl (fun m r => min m r.current_epoch) (min a r.current_epoch)
        ≤ min a r.current_epoch := ih _
      _ ≤ a := min_le_left _ _

theorem foldl_min_le_mem (l : List Reader) (a : Epoch) (r : Reader) (h : r ∈ l) :
    l.foldl (fun m x => min m x.current_epoch) a ≤ r.current_epoch := by
  induction l generalizing a with
  | nil => simp at h
  | cons x t ih =>
    rcases List.mem_cons.1 h with rfl | hm
    · calc t.foldl (fun m x => min m x.current_epoch) (min a r.current_epoch)
          ≤ min a r.current_epoch := foldl_min_le_init t _
        _ ≤ r.current_epoch := min_le_right _ _
    · exact ih _ hm

theorem popWhileLt_sublist (e : Epoch) (l : List Trash) :
    List.Sublist (popWhileLt e l) l := by
  induction l with
  | nil => simp [popWhileLt]
  | cons t rest ih =>
    by_cases h : t.epoch < e
    · simpa [popWhileLt, h] using List.Sublist.cons t ih
    · simp [popWhileLt, h]

theorem popWhileLt_eq_drop (e : Epoch) (l : List Trash) :
    ∃ n, popWhileLt e l = l.drop n := by
  induction l with
  | nil => exact ⟨0, rfl⟩
  | cons t rest ih =>
    by_cases h : t.epoch < e
    · obtain ⟨n, hn⟩ := ih
      exact ⟨n + 1, by simp [popWhileLt, h, hn]⟩
    · exact ⟨0, by simp [popWhileLt, h]⟩

/-- When the queue's epochs are non-decreasing from front to back, the
front-stopping trim loop removes exactly the entries tagged below the
cutoff. -/
theorem popWhileLt_eq_filter (e : Epoch) (l : List Trash)
    (h : List.Chain' (· ≤ ·) (l.map Trash.epoch)) :
    popWhileLt e l = l.filter (fun t => decide (e ≤ t.epoch)) := by
  induction l with
  | nil => rfl
  | cons t rest ih =>
    have hp : List.Pairwise (· ≤ ·) ((t :: rest).map Trash.epoch) :=
      List.chain'_iff_pairwise.1 h
    have htail : List.Chain' (· ≤ ·) (rest.map Trash.epoch) := by
      rw [List.map_cons] at h
      exact h.tail
    by_cases hlt : t.epoch < e
    · simp [popWhileLt, hlt, ih htail, List.filter_cons, Nat.not_le.2 hlt]
    · have hbound : ∀ u ∈ rest, t.epoch ≤ u.epoch := by
        intro u hu
        rw [List.map_cons] at hp
        exact (List.pairwise_cons.1 hp).1 u.epoch (List.mem_map_of_mem Trash.epoch hu)
      have hall : rest.filter (fun t => decide (e ≤ t.epoch)) = rest := by
        refine List.filter_eq_self.2 ?_
        intro u hu
        exact decide_eq_true (le_trans (Nat.not_lt.1 hlt) (hbound u hu))
      simp [popWhileLt, hlt, List.filter_cons, Nat.not_lt.1 hlt, hall]

/-! ## Reachability invariant -/

/-- The state invariant maintained by every operation: every registered
reader's observed epoch and every queued entry's retirement epoch are
values the counter has already produced, and the queue's epochs are
non-decreasing from front (oldest) to back (newest). -/
def Inv (s : SWQSR) : Prop :=
  (∀ r ∈ s.readers_, r.current_epoch ≤ s.global_epoch_) ∧
  (∀ t ∈ s.garbage_, t.epoch ≤ s.global_epoch_) ∧
  List.Chain' (· ≤ ·) (s.garbage_.map Trash.epoch)

theorem inv_init : Inv initState := by
  refine ⟨?_, ?_, ?_⟩ <;> simp [initState]

theorem inv_applyOp (s : SWQSR) (o : Op) (h : Inv s) : Inv (applyOp s o) := by
  obtain ⟨hr, hg, hc⟩ := h
  cases o with
  | createReader =>
    refine ⟨?_, hg, hc⟩
    intro r hm
    rcases List.mem_cons.1 hm with rfl | hm
    · exact le_rfl
    · exact hr r hm
  | removeReader i =>
    refine ⟨?_, hg, hc⟩
    intro r hm
    exact hr r ((List.eraseIdx_sublist s.readers_ i).mem hm)
  | quiesce i =>
    refine ⟨?_, hg, hc⟩
    intro r hm
    rcases List.mem_or_eq_of_mem_set hm with hm | rfl
    · exact hr r hm
    · exact le_rfl
  | destroyLater g =>
    refine ⟨hr, ?_, ?_⟩
    · intro t hm
      rcases List.mem_append.1 hm with hm | hm
      · exact hg t hm
      · simp only [List.mem_singleton] at hm
        subst hm
        rfl
    · show List.Chain' (· ≤ ·) ((s.garbage_ ++ [_]).map Trash.epoch)
      rw [List.map_append]
      refine List.chain'_append.2 ⟨hc, by simp, ?_⟩
      intro x hx y hy
      simp only [List.map_cons, List.map_nil, List.head?_cons, Option.mem_def,
        Option.some.injEq] at hy
      subst hy
      obtain ⟨t, htm, hte⟩ := List.mem_map.1 (List.mem_of_mem_getLast? hx)
      exact hte ▸ hg t htm
  | collect =>
    have hmono : ∀ t ∈ s.garbage_, t.epoch ≤ s.global_epoch_ + 1 :=
      fun t hm => le_trans (hg t hm) (Nat.le_succ _)
    have hrmono : ∀ r ∈ s.readers_, r.current_epoch ≤ s.global_epoch_ + 1 :=
      fun r hm => le_trans (hr r hm) (Nat.le_succ _)
    show Inv (garbage_collect s).1
    rw [garbage_collect_fst]
    split
    · exact ⟨hrmono, fun t hm => hmono t ((popWhileLt_sublist _ _).mem hm),
        hc.sublist (List.Sublist.map Trash.epoch (popWhileLt_sublist _ _))⟩
    · exact ⟨hrmono, hmono, hc⟩

theorem inv_runFrom (ops : List Op) (s : SWQSR) (h : Inv s) : Inv (runFrom s ops) := by
  induction ops generalizing s with
  | nil => exact h
  | cons o rest ih => exact ih _ (inv_applyOp s o h)

theorem inv_reachable (s : SWQSR) (h : Reachable s) : Inv s := by
  obtain ⟨ops, rfl⟩ := h
  exact inv_runFrom ops initState inv_init

/-! ## Claims -/

/-- C1: the claimed safety property fails on the code.  Along the
concrete operation sequence below, the writer reaches a state whose
garbage queue holds the entry retired at epoch 2 while a currently
registered reader's `current_epoch()` is 0; the next `garbage_collect()`
nevertheless removes that entry (`min_quiesced_epoch` skips the first
registry element, so the stale front reader is never consulted). -/
theorem c1_safety_violation_trace :
    (run [.createReader, .createReader, .collect, .collect, .destroyLater 42,
       .quiesce 1, .collect, .quiesce 1, .collect, .quiesce 1, .collect]).garbage_ =
      [{ epoch := 2, item := 42 }] ∧
    (∃ r ∈ (run [.createReader, .createReader, .collect, .collect, .destroyLater 42,
       .quiesce 1, .collect, .quiesce 1, .collect, .quiesce 1, .collect]).readers_,
      r.current_epoch < 2) ∧
    (garbage_collect (run [.createReader, .createReader, .collect, .collect,
       .destroyLater 42, .quiesce 1, .collect, .quiesce 1, .collect, .quiesce 1,
       .collect])).1.garbage_ = [] := by
  decide

/-- C2: the claimed no-reader fast path fails on the code.  From a fresh
instance with zero registered readers, retiring one object and calling
`garbage_collect()` once removes nothing: `min_quiesced_epoch` returns
the `uint64_t` max sentinel, which never satisfies
`gc_epoch < global_epoch`, so the trim branch is skipped and
`pending_garbage()` returns 1, not 0. -/
theorem c2_no_reader_collect_removes_nothing :
    (run [.destroyLater 42]).readers_ = [] ∧
    pending_garbage (run [.destroyLater 42]) = 1 ∧
    pending_garbage (run [.destroyLater 42, .collect]) = 1 ∧
    (run [.destroyLater 42, .collect]).garbage_ = [{ epoch := 0, item := 42 }] := by
  decide

/-- C3: the claimed scenario fails on the code.  From a fresh instance
(`global_epoch_` starts at 0, not 1): a reader registers (observing
epoch 0), the writer retires B at epoch 0 and collects — B survives with
`pending_garbage() = 1` as the claim says — but after the reader
re-quiesces and the writer collects again, B is still in the queue:
with a single registered reader `min_quiesced_epoch` skips it and
returns the sentinel, so the trim branch never runs. -/
theorem c3_scenario_object_never_destroyed :
    pending_garbage (run [.createReader, .destroyLater 7, .collect]) = 1 ∧
    pending_garbage (run [.createReader, .destroyLater 7, .collect,
      .quiesce 0, .collect]) = 1 ∧
    (run [.createReader, .destroyLater 7, .collect, .quiesce 0, .collect]).garbage_ =
      [{ epoch := 0, item := 7 }] := by
  decide

/-- C4: with exactly one registered reader, `garbage_collect()` leaves
the garbage queue unchanged for every observed epoch of that reader,
every `uint64_t` value of the global counter and every queue contents:
`min_quiesced_epoch` iterates the registry starting after its first
element, so a one-element registry yields the no-readers sentinel, and
the sentinel never satisfies `gc_epoch < global_epoch`. -/
theorem c4_single_reader_collect_leaves_queue (r : Reader) (g : Epoch)
    (q : List Trash) (hg : g < 2 ^ 64) :
    min_quiesced_epoch { global_epoch_ := g, readers_ := [r], garbage_ := q } = epochMax ∧
    (garbage_collect { global_epoch_ := g, readers_ := [r], garbage_ := q }).1.garbage_ = q ∧
    pending_garbage (garbage_collect
      { global_epoch_ := g, readers_ := [r], garbage_ := q }).1 =
      pending_garbage { global_epoch_ := g, readers_ := [r], garbage_ := q } := by
  have hmin : min_quiesced_epoch
      { global_epoch_ := g, readers_ := [r], garbage_ := q } = epochMax := rfl
  have hnot : ¬ (0 < epochMax ∧ epochMax < g) := by
    rintro ⟨-, hlt⟩
    have hlt2 : (18446744073709551615 : Nat) < g := by
      have hem : epochMax = 18446744073709551615 := by norm_num [epochMax]
      rw [hem] at hlt
      exact hlt
    have hg2 : g < (18446744073709551616 : Nat) := by
      have h64 : (2 : Nat) ^ 64 = 18446744073709551616 := by norm_num
      rw [h64] at hg
      exact hg
    exact absurd hlt2 (Nat.not_lt.2 (Nat.lt_succ_iff.1 hg2))
  refine ⟨hmin, ?_, ?_⟩
  · rw [garbage_collect_fst, hmin, if_neg hnot]
  · rw [garbage_collect_fst, hmin, if_neg hnot]
    rfl

/-- C4 witness: a concrete single-reader state (reader epoch 1, global
epoch 3, one queued entry retired at epoch 0) keeps its queue across a
collect. -/
theorem c4_witness :
    min_quiesced_epoch ⟨3, [⟨1⟩], [⟨0, 5⟩]⟩ = epochMax ∧
    (garbage_collect ⟨3, [⟨1⟩], [⟨0, 5⟩]⟩).1.garbage_ = [⟨0, 5⟩] ∧
    pending_garbage (garbage_collect ⟨3, [⟨1⟩], [⟨0, 5⟩]⟩).1 =
      pending_garbage ⟨3, [⟨1⟩], [⟨0, 5⟩]⟩ :=
  c4_single_reader_collect_leaves_queue ⟨1⟩ 3 [⟨0, 5⟩] (by norm_num)

/-- C5: in every reachable state entered by a `garbage_collect()` call
with at least one registered reader, the minimum of `observed_epoch()`
over the registered readers never exceeds the pre-advance global epoch
captured by the call (`fetch_add` returns `s.global_epoch_`): a reader
cannot have observed an epoch the writer has not yet produced.  The
second conjunct records that the value `min_quiesced_epoch()` actually
computes also respects the bound whenever the element it skips is not
the only reader. -/
theorem c5_min_reader_epoch_le_global (s : SWQSR) (hreach : Reachable s)
    (hne : s.readers_ ≠ []) :
    minReaderEpoch s ≤ s.global_epoch_ ∧
    (2 ≤ s.readers_.length → min_quiesced_epoch s ≤ s.global_epoch_) := by
  obtain ⟨hr, -, -⟩ := inv_reachable s hreach
  constructor
  · obtain ⟨r, t, hcons⟩ : ∃ r t, s.readers_ = r :: t := by
      cases hx : s.readers_ with
      | nil => exact absurd hx hne
      | cons r t => exact ⟨r, t, rfl⟩
    have hmem : r ∈ s.readers_ := hcons ▸ List.mem_cons_self r t
    calc minReaderEpoch s ≤ r.current_epoch := by
          unfold minReaderEpoch
          rw [hcons]
          exact foldl_min_le_mem _ _ r (List.mem_cons_self r t)
      _ ≤ s.global_epoch_ := hr r hmem
  · intro hlen
    obtain ⟨r, hm⟩ : ∃ r, r ∈ s.readers_.drop 1 := by
      have hpos : 0 < (s.readers_.drop 1).length := by
        rw [List.length_drop]
        omega
      exact List.exists_mem_of_length_pos hpos
    calc min_quiesced_epoch s ≤ r.current_epoch := foldl_min_le_mem _ _ r hm
      _ ≤ s.global_epoch_ := hr r (List.mem_of_mem_drop hm)

/-- C5 witness: the reachable state after two registrations and one
collect (two readers at epoch 0, global epoch 1). -/
theorem c5_witness :
    minReaderEpoch (run [.createReader, .createReader, .collect]) ≤
      (run [.createReader, .createReader, .collect]).global_epoch_ ∧
    (2 ≤ (run [.createReader, .createReader, .collect]).readers_.length →
      min_quiesced_epoch (run [.createReader, .createReader, .collect]) ≤
        (run [.createReader, .createReader, .collect]).global_epoch_) :=
  c5_min_reader_epoch_le_global (run [.createReader, .createReader, .collect])
    ⟨[.createReader, .createReader, .collect], rfl⟩ (by decide)

/-- C6 counterexample: a reachable state with two registered readers,
both at observed epoch 1 (so the registry minimum is 1 under either
reading), pre-advance global epoch 2, and one queue entry retired at
epoch 0.  The claim says the entry (epoch 0 < 1) is removed by
`garbage_collect()`; the code keeps it, because the trim cutoff is
`min_quiesced_epoch() - 1 = 0` and the loop pops only entries with
epoch strictly below the cutoff. -/
theorem c6_counterexample :
    min_quiesced_epoch (run [.createReader, .createReader, .destroyLater 9,
      .collect, .quiesce 0, .quiesce 1, .collect]) = 1 ∧
    minReaderEpoch (run [.createReader, .createReader, .destroyLater 9,
      .collect, .quiesce 0, .quiesce 1, .collect]) = 1 ∧
    (run [.createReader, .createReader, .destroyLater 9,
      .collect, .quiesce 0, .quiesce 1, .collect]).global_epoch_ = 2 ∧
    (run [.createReader, .createReader, .destroyLater 9,
      .collect, .quiesce 0, .quiesce 1, .collect]).readers_ ≠ [] ∧
    (run [.createReader, .createReader, .destroyLater 9,
      .collect, .quiesce 0, .quiesce 1, .collect]).garbage_ = [⟨0, 9⟩] ∧
    (garbage_collect (run [.createReader, .createReader, .destroyLater 9,
      .collect, .quiesce 0, .quiesce 1, .collect])).1.garbage_ = [⟨0, 9⟩] := by
  decide

/-- C6 (amended): when `garbage_collect()` runs with at least one
registered reader and the registry minimum `m = min_quiesced_epoch()`
(which skips the registry's first element) satisfies `0 < m` and
`m < global_epoch`, it removes from the front exactly those entries
whose tagged epoch is strictly less than `m - 1` — the code applies a
one-generation safety lag below the computed minimum — stopping at the
first entry that is not eligible (here expressed through the queue's
non-decreasing epoch order, under which the front-stopping loop removes
precisely the ineligible-free prefix). -/
theorem c6_trim_removes_exactly_below_lagged_min (s : SWQSR)
    (hne : s.readers_ ≠ [])
    (hchain : List.Chain' (· ≤ ·) (s.garbage_.map Trash.epoch))
    (hpos : 0 < min_quiesced_epoch s)
    (hlt : min_quiesced_epoch s < s.global_epoch_) :
    (garbage_collect s).1.garbage_ =
      s.garbage_.filter (fun t => decide (min_quiesced_epoch s - 1 ≤ t.epoch)) := by
  rw [garbage_collect_fst, if_pos ⟨hpos, hlt⟩]
  exact popWhileLt_eq_filter _ _ hchain

/-- C6 witness: a two-reader state with registry minimum 2 and global
epoch 3 trims exactly the entries retired strictly before epoch 1. -/
theorem c6_witness :
    (garbage_collect ⟨3, [⟨3⟩, ⟨2⟩], [⟨0, 1⟩, ⟨1, 2⟩, ⟨2, 3⟩]⟩).1.garbage_ =
      List.filter (fun t => decide (min_quiesced_epoch
        ⟨3, [⟨3⟩, ⟨2⟩], [⟨0, 1⟩, ⟨1, 2⟩, ⟨2, 3⟩]⟩ - 1 ≤ t.epoch))
        [⟨0, 1⟩, ⟨1, 2⟩, ⟨2, 3⟩] :=
  c6_trim_removes_exactly_below_lagged_min ⟨3, [⟨3⟩, ⟨2⟩], [⟨0, 1⟩, ⟨1, 2⟩, ⟨2, 3⟩]⟩
    (by decide) (by simp) (by decide) (by decide)

/-- C7 counterexample: a `garbage_collect()` call that collects nothing
but does not return 0.  In the reachable state below (two readers, the
skipped-by-one registry minimum is 0, global epoch 1, empty queue) the
call removes no entry — the queue is empty before and after — yet
returns `global_epoch - gc_epoch = 1`. -/
theorem c7_counterexample :
    (run [.createReader, .createReader, .collect]).garbage_ = [] ∧
    (garbage_collect (run [.createReader, .createReader, .collect])).1.garbage_ = [] ∧
    (garbage_collect (run [.createReader, .createReader, .collect])).2 = 1 := by
  decide

/-- C7 (amended): `garbage_collect()` returns `global_epoch` minus the
effective gc epoch of the call, clamped at zero, where `global_epoch` is
the pre-advance counter value and the effective gc epoch is
`min_quiesced_epoch() - 1` when the trim branch runs and
`min_quiesced_epoch()` unchanged otherwise; a call that collects nothing
can still return a positive count. -/
theorem c7_return_eq_global_sub_effective (s : SWQSR) :
    (garbage_collect s).2 = s.global_epoch_ - effective_gc_epoch s := by
  rw [garbage_collect_snd]
  unfold effective_gc_epoch
  by_cases h : 0 < min_quiesced_epoch s ∧ min_quiesced_epoch s < s.global_epoch_
  · rw [if_pos h, if_pos h,
      if_pos (lt_of_le_of_lt (Nat.sub_le (min_quiesced_epoch s) 1) h.2)]
  · rw [if_neg h, if_neg h]
    by_cases hmg : min_quiesced_epoch s < s.global_epoch_
    · rw [if_pos hmg]
    · rw [if_neg hmg, Nat.sub_eq_zero_of_le (Nat.not_lt.1 hmg)]

/-- C8: in every reachable state the retirement epochs tagged on the
garbage queue form a non-decreasing sequence from front (oldest) to back
(newest); `destroy_later` appends an entry tagged with the current
epoch at the back, and `garbage_collect` removes entries only from the
front (its result is a `drop` of the queue). -/
theorem c8_garbage_epochs_nondecreasing (s : SWQSR) (hreach : Reachable s) :
    List.Chain' (· ≤ ·) (s.garbage_.map Trash.epoch) ∧
    (∀ g : Nat, (destroy_later g s).garbage_ =
      s.garbage_ ++ [{ epoch := s.global_epoch_, item := g }]) ∧
    (∃ n, (garbage_collect s).1.garbage_ = s.garbage_.drop n) := by
  refine ⟨(inv_reachable s hreach).2.2, fun g => rfl, ?_⟩
  rw [garbage_collect_fst]
  split
  · exact popWhileLt_eq_drop _ _
  · exact ⟨0, rfl⟩

/-- C8 witness: the queue of a concrete reachable state (two retirements
across a collect) has non-decreasing epochs. -/
theorem c8_witness :
    List.Chain' (· ≤ ·)
      ((run [.destroyLater 5, .collect, .destroyLater 6]).garbage_.map Trash.epoch) :=
  (c8_garbage_epochs_nondecreasing (run [.destroyLater 5, .collect, .destroyLater 6])
    ⟨[.destroyLater 5, .collect, .destroyLater 6], rfl⟩).1

/-- C9: `create_reader()` inserts the new handle at the front of the
reader registry and the `Reader` constructor immediately performs an
initial quiescent mark, so directly after registration the handle's
`current_epoch()` equals the global epoch counter at registration time
(one snapshot contributed even if the reader never quiesces again);
the counter and the garbage queue are untouched. -/
theorem c9_create_reader_initial_quiesce (s : SWQSR) :
    (create_reader s).readers_ = { local_ := s.global_epoch_ } :: s.readers_ ∧
    ((create_reader s).readers_.head?.map Reader.current_epoch) =
      some s.global_epoch_ ∧
    (create_reader s).global_epoch_ = s.global_epoch_ ∧
    (create_reader s).garbage_ = s.garbage_ :=
  ⟨rfl, rfl, rfl, rfl⟩

/-- C10: `on_quiesce()` is idempotent between writer advances: any
number of consecutive calls on the same handle with no intervening
change of the global epoch counter leaves the state — in particular the
handle's `current_epoch()` — exactly as after the first call. -/
theorem c10_on_quiesce_idempotent (s : SWQSR) (i : Nat) (n : Nat) :
    (on_quiesce i)^[n + 1] s = on_quiesce i s := by
  induction n generalizing s with
  | zero => rfl
  | succ n ih =>
    rw [Function.iterate_succ_apply, ih]
    simp [on_quiesce, List.set_set]

end darr
